import Mathlib

/-!
Verification of the coroutine-workshop core (`task<T>`, `storage<T>`,
`async<Func>`, `sync_await`) from
`src/source/exercise01_solution_generalized.cpp` (with the matching
definitions in `src/source/exercise08_solution.cpp` and
`src/unnamed/part_005`), as a shallow embedding in Lean 4.

Modelling conventions:
* `std::exception_ptr` values are modelled by an abstract identity
  (`Nat`): rethrowing the stored pointer surfaces the *same* identity,
  so "same exception object, not a copy" is expressible.
* The tri-state `std::variant<std::monostate, std::exception_ptr, T>`
  of `storage_base<T>` becomes the inductive `StorageState T`.
* Reading a value out of the variant while it holds `std::monostate`
  is a contract violation in the source design (`get()` on an unset
  cell); it is modelled by the distinguished outcome `GetOutcome.undef`.
* The coroutine machinery (`task`, `synchronized_task`, `sync_await`)
  is modelled by a small-step machine over a world of coroutine frames;
  coroutine bodies are the micro-language `Body` (co_return a value,
  throw an exception, or co_await another task and continue).  Handles
  (`std::coroutine_handle<>`) are the inductive `Handle`, with
  `Handle.noop` playing the role of `std::noop_coroutine()`.
-/

namespace Workshop

/-- Abstract identity of an in-flight C++ exception object
(`std::exception_ptr` target).  Two equal `ExnId`s denote the very same
exception object. -/
abbrev ExnId := Nat

/-- The state of `storage_base<T>::result_`, i.e. of
`std::variant<std::monostate, std::exception_ptr, T>`
(exercise01_solution_generalized.cpp line 108). -/
inductive StorageState (T : Type) where
  | unset
  | exn (e : ExnId)
  | value (v : T)
  deriving DecidableEq, Repr

/-- Observable outcome of a `get()`-style read:
either the call returns a value, rethrows a stored exception, or hits
the unset cell (the design's contract violation / undefined branch). -/
inductive GetOutcome (T : Type) where
  | undef
  | thrown (e : ExnId)
  | ok (v : T)
  deriving DecidableEq, Repr

/-- Embeds `check_and_rethrow` (lines 98-103): if the variant holds an
`std::exception_ptr`, rethrow it (`some e` = the call throws exception
`e`); otherwise do nothing (`none`). -/
def check_and_rethrow {T : Type} : StorageState T → Option ExnId
  | .exn e => some e
  | _ => none

/-- Embeds `storage_base<T>::set_value` (lines 111-114):
`result_.template emplace<T>(...)` unconditionally re-seats the variant
on the value alternative, whatever it held before. -/
def storage_base.set_value {T : Type} (_s : StorageState T) (v : T) : StorageState T :=
  .value v

/-- Embeds `storage<T>::set_exception` (lines 158-160):
`result_ = std::move(ptr)` unconditionally re-seats the variant on the
exception alternative, whatever it held before. -/
def storage.set_exception {T : Type} (_s : StorageState T) (e : ExnId) : StorageState T :=
  .exn e

/-- Embeds `storage_base<T>::get() const&` (lines 116-119):
`check_and_rethrow(result_)` then `return std::get<T>(result_)`.
If the variant is unset, control reaches `std::get` on the wrong
alternative — the design's undefined branch, modelled as `.undef`.
The C++ overload returns `const T&`; reference category is a type-level
notion with no Lean counterpart, so the outcome carries the value. -/
def storage_base.get_ref {T : Type} (s : StorageState T) : GetOutcome T :=
  match check_and_rethrow s with
  | some e => .thrown e
  | none =>
    match s with
    | .value v => .ok v
    | _ => GetOutcome.undef

/-- Embeds `storage_base<T>::get() &&` (lines 121-124):
`check_and_rethrow(result_)` then
`return std::get<T>(std::move(result_))` — the move-extracting
overload.  Behaviourally identical to `get_ref` modulo the C++ value
category of the result. -/
def storage_base.get_move {T : Type} (s : StorageState T) : GetOutcome T :=
  match check_and_rethrow s with
  | some e => .thrown e
  | none =>
    match s with
    | .value v => .ok v
    | _ => GetOutcome.undef

/-- Embeds `detail::task_promise_storage_base<T>::unhandled_exception`
(lines 272-277): `this->set_exception(std::current_exception())`, where
`std::current_exception()` captures the in-flight exception object
itself (same identity, not a copy). -/
def task_promise_storage_base.unhandled_exception {T : Type}
    (s : StorageState T) (current : ExnId) : StorageState T :=
  storage.set_exception s current

/-- Result of invoking the user callable `Func` wrapped by
`async<Func>`: it either returns a value or throws an exception
object. -/
inductive CallResult (T : Type) where
  | ok (v : T)
  | raised (e : ExnId)
  deriving DecidableEq, Repr

/-- Embeds the `try { ... }` block of the `work` lambda in
`async::operator co_await()::awaiter::await_suspend`
(lines 384-396): attempt `awaitable.result_.set_value(awaitable.func_())`;
if the callable throws, `set_value` is never reached and the exception
propagates to the handler (`some e`). -/
def async.tryBlock {T : Type} (f : CallResult T) (cell : StorageState T) :
    StorageState T × Option ExnId :=
  match f with
  | .ok v => (storage_base.set_value cell v, none)
  | .raised e => (cell, some e)

/-- Embeds the whole `try`/`catch (...)` of the `work` lambda:
the `catch (...)` handler catches every exception and stores it via
`awaitable.result_.set_exception(std::current_exception())`.  The
second component is the exception (if any) escaping the lambda
synchronously: `catch (...)` leaves nothing to escape. -/
def async.work {T : Type} (f : CallResult T) (cell : StorageState T) :
    StorageState T × Option ExnId :=
  match async.tryBlock f cell with
  | (c, none) => (c, none)
  | (c, some e) => (storage.set_exception c e, none)

/-- Embeds `async::awaiter::await_resume` (lines 401-403):
`return std::move(awaitable.result_).get()` — a move-extracting read of
the private cell. -/
def async.await_resume {T : Type} (cell : StorageState T) : GetOutcome T :=
  storage_base.get_move cell

/-! ## The coroutine machine

A small-step operational model of the `task` / `synchronized_task`
machinery.  All task value types are fixed to `Val := Int` (the
repository's examples use `task<int>`); the storage-cell reasoning
above stays generic. -/

/-- Task value type of the machine (the examples use `task<int>`). -/
abbrev Val := Int

/-- `std::coroutine_handle<>`: either `std::noop_coroutine()` or the
handle of coroutine frame `i` in the world. -/
inductive Handle where
  | noop
  | coro (i : Nat)
  deriving DecidableEq, Repr

/-- The remaining body of a coroutine, in a micro-language:
`co_return v`, throw exception `e` (user code throwing, or the point
where an awaited task's stored exception is rethrown by
`await_resume` and caught by `unhandled_exception`), or
`co_await` the task with frame id `j` and continue with `k` applied
to the awaited value. -/
inductive Body where
  | ret (v : Val)
  | fail (e : ExnId)
  | awaitTask (j : Nat) (k : Val → Body)

/-- One coroutine frame plus its promise:
`result` is the promise's inherited `storage<T>` cell,
`continuation` is `promise_type::continuation`
(initialized to `std::noop_coroutine()`, line 300),
`done` is what `handle.done()` reports (true from the final suspend
point on), and `isSync` records whether `set_sync` was called
(a `synchronized_task` started through `start(sync)`, lines 430-432
and 459-462; the null check `if (promise.sync_)` on line 443). -/
structure Coro where
  body : Body
  result : StorageState Val
  continuation : Handle
  done : Bool
  isSync : Bool

/-- Placeholder frame returned when a world is indexed out of range;
inert (already done, cell set) so it can never take a step or notify. -/
def defaultCoro : Coro :=
  { body := .ret 0, result := .value 0, continuation := .noop,
    done := true, isSync := false }

instance : Inhabited Coro := ⟨defaultCoro⟩

/-- Observable events, recorded in order, for the ordering claims:
`stored i` = coroutine `i`'s result cell was written at completion
(`return_value` / `unhandled_exception`); `notified` =
`notify_awaitable_completed()` was invoked (the semaphore release). -/
inductive Event where
  | stored (i : Nat)
  | notified
  deriving DecidableEq, Repr

/-- The machine state: the coroutine frames, which frame currently
executes (`noop` = control is back at the host thread), the binary
semaphore's counter, how many times `notify_awaitable_completed` ran,
and the event trace. -/
structure World where
  coros : List Coro
  current : Handle
  sem : Nat
  notifyCount : Nat
  trace : List Event

/-- Frame lookup (out of range yields the inert `defaultCoro`). -/
def World.getCoro (w : World) (i : Nat) : Coro :=
  w.coros.getD i defaultCoro

/-- Frame update (out of range is a no-op, as `List.set`). -/
def World.setCoro (w : World) (i : Nat) (c : Coro) : World :=
  { w with coros := w.coros.set i c }

/-- Completion of coroutine `i` with final cell contents `r`:
models `return_value`/`unhandled_exception` writing the cell, followed
by the final-suspend awaiter (task lines 306-314, `synchronized_task`
lines 438-452): the frame becomes done, then — for a synchronized
task — `promise.sync_->notify_awaitable_completed()` releases the
semaphore, and finally `await_suspend` returns the stored
continuation handle, which the runtime resumes in place (symmetric
transfer). -/
def World.finish (w : World) (i : Nat) (r : StorageState Val) : World :=
  if (w.getCoro i).isSync then
    { w.setCoro i { w.getCoro i with result := r, done := true } with
      sem := w.sem + 1
      notifyCount := w.notifyCount + 1
      trace := w.trace ++ [.stored i, .notified]
      current := (w.getCoro i).continuation }
  else
    { w.setCoro i { w.getCoro i with result := r, done := true } with
      trace := w.trace ++ [.stored i]
      current := (w.getCoro i).continuation }

/-- One step of the currently executing coroutine.

* `ret v` — `co_return v`: `return_value` stores the value
  (`task_promise_storage::return_value`, lines 280-286), then the
  final awaiter runs (`World.finish`).
* `fail e` — the body throws: `unhandled_exception` captures the
  in-flight object into the cell (lines 272-277), then the final
  awaiter runs; nothing escapes the resume call.
* `awaitTask j k` — `co_await` on task `j`:
  `task::awaiter::await_ready` is `handle.done()` (lines 342-344).
  If the task is already done, there is no suspension:
  `await_resume` reads `promise.get()` (lines 351-353) — a stored
  value continues the body, a stored exception is rethrown into the
  awaiting coroutine (modelled as its body becoming `fail e`), and
  the unset cell would be the undefined branch (modelled as a halt).
  Otherwise `await_suspend` stores the awaiting handle as task `j`'s
  continuation and returns task `j`'s own handle (lines 346-349),
  which the runtime resumes — modelled as `current := .coro j`.

Resuming an already-done frame is undefined in C++; modelled as a
halt. -/
def step (w : World) : World :=
  match w.current with
  | .noop => w
  | .coro i =>
    if (w.getCoro i).done then { w with current := .noop }
    else
      match (w.getCoro i).body with
      | .ret v => w.finish i (storage_base.set_value (w.getCoro i).result v)
      | .fail e =>
        w.finish i (task_promise_storage_base.unhandled_exception (w.getCoro i).result e)
      | .awaitTask j k =>
        if (w.getCoro j).done then
          match storage_base.get_ref (w.getCoro j).result with
          | .ok v => w.setCoro i { w.getCoro i with body := k v }
          | .thrown e => w.setCoro i { w.getCoro i with body := .fail e }
          | .undef => { w with current := .noop }
        else
          { (w.setCoro j { w.getCoro j with continuation := .coro i }) with
            current := .coro j }

/-- Run until control returns to the host (`current = noop`) or fuel
runs out. -/
def run : Nat → World → World
  | 0, w => w
  | n + 1, w =>
    match w.current with
    | .noop => w
    | .coro _ => run n (step w)

/-- The two trivial standard awaiters `std::suspend_always` /
`std::suspend_never`. -/
inductive TrivialAwaiter where
  | always
  | never
  deriving DecidableEq, Repr

/-- `await_ready` of the trivial awaiters: `suspend_always` is never
ready (the suspension is always taken), `suspend_never` always is. -/
def TrivialAwaiter.await_ready : TrivialAwaiter → Bool
  | .always => false
  | .never => true

/-- Embeds `task::promise_type::initial_suspend` (lines 302-304, and
identically `exercise08_solution.cpp` lines 182-184):
`static std::suspend_always initial_suspend()`. -/
def task.initial_suspend : TrivialAwaiter := .always

/-- Embeds `synchronized_task::promise_type::initial_suspend`
(lines 434-436): also `std::suspend_always`. -/
def synchronized_task.initial_suspend : TrivialAwaiter := .always

/-- Invoking a coroutine function: a fresh frame is allocated with an
unset cell and the no-op continuation; per C++ semantics the body
begins executing right away iff the initial-suspend awaiter is ready
(not taken).  Returns the frame and whether the body started. -/
def invoke_coroutine (initial : TrivialAwaiter) (body : Body) : Coro × Bool :=
  ({ body := body, result := .unset, continuation := .noop,
     done := false, isSync := false },
   initial.await_ready)

/-- Invoking a `task`-returning coroutine function. -/
def invoke_task (body : Body) : Coro × Bool :=
  invoke_coroutine task.initial_suspend body

/-- Embeds `task::start` (`exercise08_solution.cpp` lines 219-221):
resume the frame from the host and let the chain run. -/
def task.start (fuel : Nat) (w : World) (i : Nat) : World :=
  run fuel { w with current := .coro i }

/-- Embeds `synchronized_task::start(sync)` (lines 459-462):
`promise_->set_sync(sync)` then resume the frame. -/
def synchronized_task.start (fuel : Nat) (w : World) (i : Nat) : World :=
  run fuel { (w.setCoro i { w.getCoro i with isSync := true }) with current := .coro i }

/-- Embeds `detail::make_synchronized_task` (lines 491-493): a fresh
suspended pass-through coroutine `co_return co_await awaitable`,
where the awaitable is the task with frame id `aid`. -/
def make_synchronized_task (aid : Nat) : Coro :=
  (invoke_coroutine synchronized_task.initial_suspend (.awaitTask aid Body.ret)).1

/-- Embeds `sync_await` (lines 497-512): wrap the awaitable in a
synchronized task (appended to the world as a fresh frame), start it
with a zero-initialized binary semaphore, block on `sem.acquire()`,
then return `sync_task.get()`.  Blocking is modelled by fuel: if the
semaphore was not released within `fuel` machine steps the host is
still blocked and no result is produced (`none`). -/
def sync_await (fuel : Nat) (w : World) (aid : Nat) : Option (GetOutcome Val) × World :=
  let rootId := w.coros.length
  let w₁ := { w with coros := w.coros ++ [make_synchronized_task aid] }
  let w₂ := synchronized_task.start fuel w₁ rootId
  if 1 ≤ w₂.sem then
    (some (storage_base.get_ref (w₂.getCoro rootId).result), { w₂ with sem := w₂.sem - 1 })
  else
    (none, w₂)

/-! ## Concrete example worlds (from the repository's example code) -/

/-- `foo` from `src/unnamed/part_005` lines 255-258: `co_return 42;`. -/
def fooCoro : Coro := (invoke_task (.ret 42)).1

/-- `bar` from `src/unnamed/part_005` lines 260-265:
`const int res = co_await foo(); co_return res + 23;` (the same shape
as `func1` of `exercise08_solution.cpp` lines 312-316 with the offload
replaced by the directly awaited task). -/
def barCoro : Coro := (invoke_task (.awaitTask 0 (fun r => .ret (r + 23)))).1

/-- The world holding `foo` (frame 0) and `bar` (frame 1), both
freshly invoked and suspended. -/
def chainWorld : World :=
  { coros := [fooCoro, barCoro], current := .noop, sem := 0, notifyCount := 0, trace := [] }

/-- A quiescent world holding one freshly invoked task that co_returns
5 — an awaitable to hand to `sync_await`. -/
def exampleWorld : World :=
  { coros := [(invoke_task (.ret 5)).1], current := .noop, sem := 0, notifyCount := 0,
    trace := [] }

/-- An already-completed frame holding the value 7 (final suspend
reached, result stored). -/
def doneCoro : Coro :=
  { body := .ret 7, result := .value 7, continuation := .noop, done := true, isSync := false }

/-- An already-completed frame holding a stored exception. -/
def doneExnCoro : Coro :=
  { body := .ret 0, result := .exn 9, continuation := .noop, done := true, isSync := false }

/-- A world in which frame 1 (running) awaits the already-done frame 0. -/
def readyWorld : World :=
  { coros := [doneCoro, barCoro], current := .coro 1, sem := 0, notifyCount := 0, trace := [] }

/-- A world in which frame 1 (running) awaits the already-done frame 0
whose cell stores an exception. -/
def readyExnWorld : World :=
  { coros := [doneExnCoro, barCoro], current := .coro 1, sem := 0, notifyCount := 0,
    trace := [] }

/-- A world whose single frame is running and about to throw
exception 3 out of its body. -/
def failWorld : World :=
  { coros := [{ body := .fail 3, result := .unset, continuation := .noop, done := false,
                isSync := false }],
    current := .coro 0, sem := 0, notifyCount := 0, trace := [] }

/-! ## Trace predicates and invariant definitions -/

/-- `hasStored root tr` — the trace already contains the event
"coroutine `root`'s result cell was written". -/
def hasStored (root : Nat) : List Event → Bool
  | [] => false
  | Event.stored i :: rest => i == root || hasStored root rest
  | Event.notified :: rest => hasStored root rest

/-- Scans a trace left to right and checks that every `notified` event
occurs strictly after a `stored root` event (the accumulator `seen`
carries "a store of `root` has already been seen"). -/
def notifyAfterStore (root : Nat) : List Event → Bool → Bool
  | [], _ => true
  | Event.stored i :: rest, seen => notifyAfterStore root rest (seen || i == root)
  | Event.notified :: rest, seen => seen && notifyAfterStore root rest seen

/-- `AllDoneStored w`: every completed frame has a written result cell
(a producer reaching its final suspend has stored value or exception
first) — the reason the unset branch of `get()` is unreachable through
the public paths. -/
def AllDoneStored (w : World) : Prop :=
  ∀ i, (w.getCoro i).done = true → (w.getCoro i).result ≠ StorageState.unset

/-- The invariant maintained while `sync_await`'s machinery runs, for
the synchronized root frame `root`:
the semaphore counter equals the number of notifications; the
notification has fired exactly once if the root is done and never
before; only the root is synchronized; every done frame has a stored
result; and every `notified` event in the trace is preceded by the
root's `stored` event. -/
structure SyncInv (root : Nat) (w : World) : Prop where
  semEq : w.sem = w.notifyCount
  countEq : w.notifyCount = (if (w.getCoro root).done then 1 else 0)
  rootSync : (w.getCoro root).isSync = true
  onlyRootSync : ∀ i, (w.getCoro i).isSync = true → i = root
  doneStored : AllDoneStored w
  traceOK : notifyAfterStore root w.trace false = true
  rootLt : root < w.coros.length

/-- A quiescent user world as `sync_await` receives it: semaphore at
zero, no notifications yet, empty trace, no synchronized frames (only
`make_synchronized_task` produces those, via `start(sync)`), and every
already-completed frame has a stored result. -/
def WellFormed (w : World) : Prop :=
  w.sem = 0 ∧ w.notifyCount = 0 ∧ w.trace = [] ∧
    ∀ c ∈ w.coros, c.isSync = false ∧ (c.done = true → c.result ≠ StorageState.unset)

/-! ## List and world lemmas -/

theorem getD_set_self {α : Type} : ∀ (l : List α) (i : Nat) (c d : α), i < l.length →
    (l.set i c).getD i d = c
  | _ :: _, 0, _, _, _ => rfl
  | _ :: l, i + 1, c, d, h => getD_set_self l i c d (Nat.lt_of_succ_lt_succ h)

theorem getD_set_ne {α : Type} : ∀ (l : List α) (i j : Nat) (c d : α), i ≠ j →
    (l.set i c).getD j d = l.getD j d
  | [], _, _, _, _, _ => rfl
  | _ :: _, 0, 0, _, _, h => absurd rfl h
  | _ :: _, 0, _ + 1, _, _, _ => rfl
  | _ :: _, _ + 1, 0, _, _, _ => rfl
  | _ :: l, i + 1, j + 1, c, d, h =>
      getD_set_ne l i j c d (fun hh => h (by rw [hh]))

theorem getD_append_left {α : Type} : ∀ (l m : List α) (i : Nat) (d : α), i < l.length →
    (l ++ m).getD i d = l.getD i d
  | [], _, i, _, h => absurd h (Nat.not_lt_zero i)
  | _ :: _, _, 0, _, _ => rfl
  | _ :: l, m, i + 1, d, h => getD_append_left l m i d (Nat.lt_of_succ_lt_succ h)

theorem getD_append_self {α : Type} : ∀ (l : List α) (c d : α),
    (l ++ [c]).getD l.length d = c
  | [], _, _ => rfl
  | _ :: l, c, d => getD_append_self l c d

theorem getD_ge {α : Type} : ∀ (l : List α) (i : Nat) (d : α), l.length ≤ i →
    l.getD i d = d
  | [], _, _, _ => rfl
  | _ :: _, 0, _, h => absurd h (Nat.not_succ_le_zero _)
  | _ :: l, i + 1, d, h => getD_ge l i d (Nat.le_of_succ_le_succ h)

theorem forall_getD {α : Type} {P : α → Prop} (d : α) (hd : P d) :
    ∀ (l : List α), (∀ c ∈ l, P c) → ∀ i, P (l.getD i d)
  | [], _, _ => hd
  | a :: _, h, 0 => h a (List.mem_cons_self a _)
  | a :: l, h, i + 1 => forall_getD d hd l (fun c hc => h c (List.mem_cons_of_mem a hc)) i

/-- A frame that is not yet done is a genuine frame of the world
(out-of-range lookups yield the inert, done, `defaultCoro`). -/
theorem lt_length_of_done_false (w : World) (i : Nat)
    (h : (w.getCoro i).done = false) : i < w.coros.length := by
  by_contra hh
  rw [World.getCoro, getD_ge _ _ _ (Nat.le_of_not_lt hh)] at h
  exact absurd h (by simp [defaultCoro])

theorem getCoro_setCoro_self (w : World) (i : Nat) (c : Coro)
    (h : i < w.coros.length) : (w.setCoro i c).getCoro i = c :=
  getD_set_self w.coros i c defaultCoro h

theorem getCoro_setCoro_ne (w : World) (i j : Nat) (c : Coro)
    (h : i ≠ j) : (w.setCoro i c).getCoro j = w.getCoro j :=
  getD_set_ne w.coros i j c defaultCoro h

theorem length_setCoro (w : World) (i : Nat) (c : Coro) :
    (w.setCoro i c).coros.length = w.coros.length :=
  List.length_set w.coros i c

/-! ## Trace lemmas -/

theorem notifyAfterStore_append (root : Nat) :
    ∀ (l₁ l₂ : List Event) (s : Bool),
    notifyAfterStore root (l₁ ++ l₂) s =
      (notifyAfterStore root l₁ s && notifyAfterStore root l₂ (s || hasStored root l₁))
  | [], l₂, s => by simp [notifyAfterStore, hasStored]
  | Event.stored i :: l₁, l₂, s => by
      simp only [List.cons_append, notifyAfterStore, hasStored, List.append_eq]
      rw [notifyAfterStore_append root l₁ l₂ (s || (i == root))]
      rw [Bool.or_assoc]
  | Event.notified :: l₁, l₂, s => by
      simp only [List.cons_append, notifyAfterStore, hasStored, List.append_eq]
      rw [notifyAfterStore_append root l₁ l₂ s, Bool.and_assoc]

theorem notifyAfterStore_snoc_stored (root i : Nat) (tr : List Event) (s : Bool)
    (h : notifyAfterStore root tr s = true) :
    notifyAfterStore root (tr ++ [Event.stored i]) s = true := by
  rw [notifyAfterStore_append]
  simp [h, notifyAfterStore]

theorem notifyAfterStore_snoc_sync (root : Nat) (tr : List Event) (s : Bool)
    (h : notifyAfterStore root tr s = true) :
    notifyAfterStore root (tr ++ [Event.stored root, Event.notified]) s = true := by
  rw [notifyAfterStore_append]
  simp [h, notifyAfterStore]

/-- Soundness of the scan: wherever a `notified` event sits in the
trace, a `stored root` event precedes it (or a store was already seen
before the scanned segment). -/
theorem notifyAfterStore_sound (root : Nat) :
    ∀ (l₁ l₂ : List Event) (s : Bool),
      notifyAfterStore root (l₁ ++ Event.notified :: l₂) s = true →
      s = true ∨ Event.stored root ∈ l₁
  | [], _, s, h => by
      simp only [List.nil_append, notifyAfterStore, Bool.and_eq_true] at h
      exact Or.inl h.1
  | Event.stored i :: l₁, l₂, s, h => by
      simp only [List.cons_append, notifyAfterStore] at h
      rcases notifyAfterStore_sound root l₁ l₂ (s || (i == root)) h with h' | h'
      · rcases Bool.or_eq_true_iff.mp h' with hs | hi
        · exact Or.inl hs
        · right
          rw [show i = root from by simpa using hi]
          exact List.mem_cons_self _ _
      · exact Or.inr (List.mem_cons_of_mem _ h')
  | Event.notified :: l₁, l₂, s, h => by
      simp only [List.cons_append, notifyAfterStore, Bool.and_eq_true] at h
      exact Or.inl h.1

/-! ## Step equations -/

theorem finish_of_sync (w : World) (i : Nat) (r : StorageState Val)
    (h : (w.getCoro i).isSync = true) :
    w.finish i r =
      { w.setCoro i { w.getCoro i with result := r, done := true } with
        sem := w.sem + 1
        notifyCount := w.notifyCount + 1
        trace := w.trace ++ [Event.stored i, Event.notified]
        current := (w.getCoro i).continuation } := by
  simp only [World.finish, h, if_true]

theorem finish_of_plain (w : World) (i : Nat) (r : StorageState Val)
    (h : (w.getCoro i).isSync = false) :
    w.finish i r =
      { w.setCoro i { w.getCoro i with result := r, done := true } with
        trace := w.trace ++ [Event.stored i]
        current := (w.getCoro i).continuation } := by
  simp only [World.finish, h, if_false, Bool.false_eq_true]

theorem getCoro_finish (w : World) (i : Nat) (r : StorageState Val) (jj : Nat) :
    (w.finish i r).getCoro jj =
      (w.setCoro i { w.getCoro i with result := r, done := true }).getCoro jj := by
  unfold World.finish
  split <;> rfl

theorem length_finish (w : World) (i : Nat) (r : StorageState Val) :
    (w.finish i r).coros.length = w.coros.length := by
  unfold World.finish
  split <;> simp [World.setCoro]

theorem finish_sem_sync (w : World) (i : Nat) (r : StorageState Val)
    (h : (w.getCoro i).isSync = true) : (w.finish i r).sem = w.sem + 1 := by
  rw [finish_of_sync w i r h]

theorem finish_notify_sync (w : World) (i : Nat) (r : StorageState Val)
    (h : (w.getCoro i).isSync = true) : (w.finish i r).notifyCount = w.notifyCount + 1 := by
  rw [finish_of_sync w i r h]

theorem finish_trace_sync (w : World) (i : Nat) (r : StorageState Val)
    (h : (w.getCoro i).isSync = true) :
    (w.finish i r).trace = w.trace ++ [Event.stored i, Event.notified] := by
  rw [finish_of_sync w i r h]

theorem finish_sem_plain (w : World) (i : Nat) (r : StorageState Val)
    (h : (w.getCoro i).isSync = false) : (w.finish i r).sem = w.sem := by
  rw [finish_of_plain w i r h]
  rfl

theorem finish_notify_plain (w : World) (i : Nat) (r : StorageState Val)
    (h : (w.getCoro i).isSync = false) : (w.finish i r).notifyCount = w.notifyCount := by
  rw [finish_of_plain w i r h]
  rfl

theorem finish_trace_plain (w : World) (i : Nat) (r : StorageState Val)
    (h : (w.getCoro i).isSync = false) :
    (w.finish i r).trace = w.trace ++ [Event.stored i] := by
  rw [finish_of_plain w i r h]

theorem finish_current (w : World) (i : Nat) (r : StorageState Val) :
    (w.finish i r).current = (w.getCoro i).continuation := by
  unfold World.finish
  split <;> rfl

theorem get_ref_ne_undef {T : Type} (s : StorageState T) (h : s ≠ StorageState.unset) :
    storage_base.get_ref s ≠ GetOutcome.undef := by
  cases s with
  | unset => exact absurd rfl h
  | exn e => simp [storage_base.get_ref, check_and_rethrow]
  | value v => simp [storage_base.get_ref, check_and_rethrow]

theorem step_noop (w : World) (h : w.current = .noop) : step w = w := by
  simp only [step, h]

theorem step_done (w : World) (i : Nat) (hc : w.current = .coro i)
    (hd : (w.getCoro i).done = true) : step w = { w with current := .noop } := by
  simp only [step, hc, hd, if_true]

theorem step_ret (w : World) (i : Nat) (v : Val) (hc : w.current = .coro i)
    (hd : (w.getCoro i).done = false) (hb : (w.getCoro i).body = .ret v) :
    step w = w.finish i (storage_base.set_value (w.getCoro i).result v) := by
  simp only [step, hc, hd, hb, Bool.false_eq_true, if_false]

theorem step_fail (w : World) (i : Nat) (e : ExnId) (hc : w.current = .coro i)
    (hd : (w.getCoro i).done = false) (hb : (w.getCoro i).body = .fail e) :
    step w = w.finish i (task_promise_storage_base.unhandled_exception (w.getCoro i).result e) := by
  simp only [step, hc, hd, hb, Bool.false_eq_true, if_false]

theorem step_await_ok (w : World) (i j : Nat) (k : Val → Body) (v : Val)
    (hc : w.current = .coro i) (hd : (w.getCoro i).done = false)
    (hb : (w.getCoro i).body = .awaitTask j k) (hjd : (w.getCoro j).done = true)
    (hr : storage_base.get_ref (w.getCoro j).result = .ok v) :
    step w = w.setCoro i { w.getCoro i with body := k v } := by
  simp only [step, hc, hd, hb, hjd, hr, Bool.false_eq_true, if_false, if_true]

theorem step_await_thrown (w : World) (i j : Nat) (k : Val → Body) (e : ExnId)
    (hc : w.current = .coro i) (hd : (w.getCoro i).done = false)
    (hb : (w.getCoro i).body = .awaitTask j k) (hjd : (w.getCoro j).done = true)
    (hr : storage_base.get_ref (w.getCoro j).result = .thrown e) :
    step w = w.setCoro i { w.getCoro i with body := .fail e } := by
  simp only [step, hc, hd, hb, hjd, hr, Bool.false_eq_true, if_false, if_true]

theorem step_await_undef (w : World) (i j : Nat) (k : Val → Body)
    (hc : w.current = .coro i) (hd : (w.getCoro i).done = false)
    (hb : (w.getCoro i).body = .awaitTask j k) (hjd : (w.getCoro j).done = true)
    (hr : storage_base.get_ref (w.getCoro j).result = .undef) :
    step w = { w with current := .noop } := by
  simp only [step, hc, hd, hb, hjd, hr, Bool.false_eq_true, if_false, if_true]

theorem step_await_suspend (w : World) (i j : Nat) (k : Val → Body)
    (hc : w.current = .coro i) (hd : (w.getCoro i).done = false)
    (hb : (w.getCoro i).body = .awaitTask j k) (hjd : (w.getCoro j).done = false) :
    step w =
      { (w.setCoro j { w.getCoro j with continuation := .coro i }) with
        current := .coro j } := by
  simp only [step, hc, hd, hb, hjd, Bool.false_eq_true, if_false]

theorem run_succ_noop (n : Nat) (w : World) (h : w.current = .noop) :
    run (n + 1) w = w := by
  simp only [run, h]

theorem run_succ_coro (n : Nat) (w : World) (i : Nat) (h : w.current = .coro i) :
    run (n + 1) w = run n (step w) := by
  simp only [run, h]

/-! ## Invariants of a running `sync_await` bridge -/

theorem syncInv_update_current (root : Nat) (w : World) (h : Handle)
    (hv : SyncInv root w) : SyncInv root { w with current := h } :=
  ⟨hv.semEq, hv.countEq, hv.rootSync, hv.onlyRootSync, hv.doneStored, hv.traceOK, hv.rootLt⟩

/-- Replacing a frame by one with the same `done`, `result` and
`isSync` fields (only `body` or `continuation` differ) preserves the
invariant. -/
theorem syncInv_set_preserve (root : Nat) (w : World) (i : Nat) (c' : Coro)
    (hv : SyncInv root w) (hi : i < w.coros.length)
    (hdone : c'.done = (w.getCoro i).done)
    (hres : c'.result = (w.getCoro i).result)
    (hsync : c'.isSync = (w.getCoro i).isSync) :
    SyncInv root (w.setCoro i c') := by
  obtain ⟨h1, h2, h3, h4, h5, h6, h7⟩ := hv
  have hget : ∀ jj, ((w.setCoro i c').getCoro jj).done = (w.getCoro jj).done ∧
      ((w.setCoro i c').getCoro jj).result = (w.getCoro jj).result ∧
      ((w.setCoro i c').getCoro jj).isSync = (w.getCoro jj).isSync := by
    intro jj
    by_cases hj : i = jj
    · subst hj
      rw [getCoro_setCoro_self w i c' hi]
      exact ⟨hdone, hres, hsync⟩
    · rw [getCoro_setCoro_ne w i jj c' hj]
      exact ⟨rfl, rfl, rfl⟩
  refine ⟨h1, ?_, ?_, ?_, ?_, h6, ?_⟩
  · rw [(hget root).1]
    exact h2
  · rw [(hget root).2.2]
    exact h3
  · intro jj hjj
    rw [(hget jj).2.2] at hjj
    exact h4 jj hjj
  · intro jj hjj
    rw [(hget jj).2.1]
    rw [(hget jj).1] at hjj
    exact h5 jj hjj
  · rwa [length_setCoro]

/-- Completing frame `i` with a written cell `r` preserves the
invariant: a synchronized root stores, notifies exactly once and
releases the semaphore in that order; a plain frame just stores. -/
theorem syncInv_finish (root : Nat) (w : World) (i : Nat) (r : StorageState Val)
    (hv : SyncInv root w) (hd : (w.getCoro i).done = false)
    (hr : r ≠ StorageState.unset) :
    SyncInv root (w.finish i r) := by
  obtain ⟨h1, h2, h3, h4, h5, h6, h7⟩ := hv
  have hilt : i < w.coros.length := lt_length_of_done_false w i hd
  by_cases hs : (w.getCoro i).isSync = true
  · have hir : i = root := h4 i hs
    subst hir
    have h20 : w.notifyCount = 0 := by
      rw [h2, hd]
      rfl
    refine ⟨?_, ?_, ?_, ?_, ?_, ?_, ?_⟩
    · rw [finish_sem_sync w i r hs, finish_notify_sync w i r hs, h1]
    · rw [finish_notify_sync w i r hs, getCoro_finish, getCoro_setCoro_self w i _ hilt, h20]
      rfl
    · rw [getCoro_finish, getCoro_setCoro_self w i _ hilt]
      exact hs
    · intro jj hjj
      by_cases hij : i = jj
      · exact hij.symm
      · rw [getCoro_finish, getCoro_setCoro_ne w i jj _ hij] at hjj
        exact h4 jj hjj
    · intro jj
      by_cases hij : i = jj
      · subst hij
        rw [getCoro_finish, getCoro_setCoro_self w i _ hilt]
        exact fun _ => hr
      · rw [getCoro_finish, getCoro_setCoro_ne w i jj _ hij]
        exact h5 jj
    · rw [finish_trace_sync w i r hs]
      exact notifyAfterStore_snoc_sync i w.trace false h6
    · rw [length_finish]
      exact h7
  · have hsf : (w.getCoro i).isSync = false := by
      cases hval : (w.getCoro i).isSync
      · rfl
      · exact absurd hval hs
    have hir : i ≠ root := by
      intro hh
      rw [hh, h3] at hsf
      cases hsf
    refine ⟨?_, ?_, ?_, ?_, ?_, ?_, ?_⟩
    · rw [finish_sem_plain w i r hsf, finish_notify_plain w i r hsf]
      exact h1
    · rw [finish_notify_plain w i r hsf, getCoro_finish, getCoro_setCoro_ne w i root _ hir]
      exact h2
    · rw [getCoro_finish, getCoro_setCoro_ne w i root _ hir]
      exact h3
    · intro jj hjj
      by_cases hij : i = jj
      · subst hij
        rw [getCoro_finish, getCoro_setCoro_self w i _ hilt] at hjj
        exact absurd hjj hs
      · rw [getCoro_finish, getCoro_setCoro_ne w i jj _ hij] at hjj
        exact h4 jj hjj
    · intro jj
      by_cases hij : i = jj
      · subst hij
        rw [getCoro_finish, getCoro_setCoro_self w i _ hilt]
        exact fun _ => hr
      · rw [getCoro_finish, getCoro_setCoro_ne w i jj _ hij]
        exact h5 jj
    · rw [finish_trace_plain w i r hsf]
      exact notifyAfterStore_snoc_stored root i w.trace false h6
    · rw [length_finish]
      exact h7

theorem syncInv_step (root : Nat) (w : World) (hv : SyncInv root w) :
    SyncInv root (step w) := by
  cases hc : w.current with
  | noop =>
    rw [step_noop w hc]
    exact hv
  | coro i =>
    cases hdone : (w.getCoro i).done with
    | true =>
      rw [step_done w i hc hdone]
      exact syncInv_update_current root w .noop hv
    | false =>
      have hilt : i < w.coros.length := lt_length_of_done_false w i hdone
      cases hb : (w.getCoro i).body with
      | ret v =>
        rw [step_ret w i v hc hdone hb]
        exact syncInv_finish root w i _ hv hdone (by simp [storage_base.set_value])
      | fail e =>
        rw [step_fail w i e hc hdone hb]
        exact syncInv_finish root w i _ hv hdone
          (by simp [task_promise_storage_base.unhandled_exception, storage.set_exception])
      | awaitTask j k =>
        cases hjd : (w.getCoro j).done with
        | true =>
          cases hr : storage_base.get_ref (w.getCoro j).result with
          | ok v =>
            rw [step_await_ok w i j k v hc hdone hb hjd hr]
            exact syncInv_set_preserve root w i _ hv hilt rfl rfl rfl
          | thrown e =>
            rw [step_await_thrown w i j k e hc hdone hb hjd hr]
            exact syncInv_set_preserve root w i _ hv hilt rfl rfl rfl
          | undef =>
            rw [step_await_undef w i j k hc hdone hb hjd hr]
            exact syncInv_update_current root w .noop hv
        | false =>
          rw [step_await_suspend w i j k hc hdone hb hjd]
          exact syncInv_update_current root _ _
            (syncInv_set_preserve root w j _ hv (lt_length_of_done_false w j hjd) rfl rfl rfl)

theorem syncInv_run (root : Nat) :
    ∀ (n : Nat) (w : World), SyncInv root w → SyncInv root (run n w)
  | 0, _, hv => hv
  | n + 1, w, hv => by
    cases hc : w.current with
    | noop =>
      rw [run_succ_noop n w hc]
      exact hv
    | coro i =>
      rw [run_succ_coro n w i hc]
      exact syncInv_run root n (step w) (syncInv_step root w hv)

theorem allDoneStored_step (w : World) (h : AllDoneStored w) : AllDoneStored (step w) := by
  cases hc : w.current with
  | noop =>
    rw [step_noop w hc]
    exact h
  | coro i =>
    cases hdone : (w.getCoro i).done with
    | true =>
      rw [step_done w i hc hdone]
      exact h
    | false =>
      have hilt : i < w.coros.length := lt_length_of_done_false w i hdone
      cases hb : (w.getCoro i).body with
      | ret v =>
        rw [step_ret w i v hc hdone hb]
        intro jj
        rw [getCoro_finish]
        by_cases hij : i = jj
        · subst hij
          rw [getCoro_setCoro_self w i _ hilt]
          intro _
          simp [storage_base.set_value]
        · rw [getCoro_setCoro_ne w i jj _ hij]
          exact h jj
      | fail e =>
        rw [step_fail w i e hc hdone hb]
        intro jj
        rw [getCoro_finish]
        by_cases hij : i = jj
        · subst hij
          rw [getCoro_setCoro_self w i _ hilt]
          intro _
          simp [task_promise_storage_base.unhandled_exception, storage.set_exception]
        · rw [getCoro_setCoro_ne w i jj _ hij]
          exact h jj
      | awaitTask j k =>
        cases hjd : (w.getCoro j).done with
        | true =>
          cases hr : storage_base.get_ref (w.getCoro j).result with
          | ok v =>
            rw [step_await_ok w i j k v hc hdone hb hjd hr]
            intro jj
            by_cases hij : i = jj
            · subst hij
              rw [getCoro_setCoro_self w i _ hilt]
              intro hdd
              have hx : (w.getCoro i).done = true := hdd
              rw [hdone] at hx
              cases hx
            · rw [getCoro_setCoro_ne w i jj _ hij]
              exact h jj
          | thrown e =>
            rw [step_await_thrown w i j k e hc hdone hb hjd hr]
            intro jj
            by_cases hij : i = jj
            · subst hij
              rw [getCoro_setCoro_self w i _ hilt]
              intro hdd
              have hx : (w.getCoro i).done = true := hdd
              rw [hdone] at hx
              cases hx
            · rw [getCoro_setCoro_ne w i jj _ hij]
              exact h jj
          | undef =>
            rw [step_await_undef w i j k hc hdone hb hjd hr]
            exact h
        | false =>
          rw [step_await_suspend w i j k hc hdone hb hjd]
          have hjlt : j < w.coros.length := lt_length_of_done_false w j hjd
          intro jj
          show ((w.setCoro j { w.getCoro j with continuation := .coro i }).getCoro jj).done = true →
            ((w.setCoro j { w.getCoro j with continuation := .coro i }).getCoro jj).result ≠
              StorageState.unset
          by_cases hij : j = jj
          · subst hij
            rw [getCoro_setCoro_self w j _ hjlt]
            intro hdd
            have hx : (w.getCoro j).done = true := hdd
            rw [hjd] at hx
            cases hx
          · rw [getCoro_setCoro_ne w j jj _ hij]
            exact h jj

theorem allDoneStored_run :
    ∀ (n : Nat) (w : World), AllDoneStored w → AllDoneStored (run n w)
  | 0, _, h => h
  | n + 1, w, h => by
    cases hc : w.current with
    | noop =>
      rw [run_succ_noop n w hc]
      exact h
    | coro i =>
      rw [run_succ_coro n w i hc]
      exact allDoneStored_run n (step w) (allDoneStored_step w h)

/-- After `sync_await` appends the synchronized adapter frame and
starts it, the bridge invariant holds throughout the run. -/
theorem syncInv_synchronized_start (fuel aid : Nat) (w₀ : World) (hwf : WellFormed w₀) :
    SyncInv w₀.coros.length
      (synchronized_task.start fuel
        { w₀ with coros := w₀.coros ++ [make_synchronized_task aid] }
        w₀.coros.length) := by
  obtain ⟨hsem, hcount, htrace, hall⟩ := hwf
  have h0 : ∀ jj, (w₀.getCoro jj).isSync = false ∧
      ((w₀.getCoro jj).done = true → (w₀.getCoro jj).result ≠ StorageState.unset) := by
    refine forall_getD defaultCoro ⟨rfl, ?_⟩ w₀.coros hall
    intro _
    simp [defaultCoro]
  unfold synchronized_task.start
  apply syncInv_run
  apply syncInv_update_current
  have hg : ({ w₀ with coros := w₀.coros ++ [make_synchronized_task aid] } : World).getCoro
      w₀.coros.length = make_synchronized_task aid :=
    getD_append_self w₀.coros (make_synchronized_task aid) defaultCoro
  have hlen : w₀.coros.length <
      ({ w₀ with coros := w₀.coros ++ [make_synchronized_task aid] } : World).coros.length := by
    simp
  have hji : ∀ jj, jj < w₀.coros.length →
      ({ w₀ with coros := w₀.coros ++ [make_synchronized_task aid] } : World).getCoro jj =
        w₀.getCoro jj :=
    fun jj h => getD_append_left w₀.coros [make_synchronized_task aid] jj defaultCoro h
  have hjg : ∀ jj, w₀.coros.length < jj →
      ({ w₀ with coros := w₀.coros ++ [make_synchronized_task aid] } : World).getCoro jj =
        defaultCoro := by
    intro jj h
    refine getD_ge (w₀.coros ++ [make_synchronized_task aid]) jj defaultCoro ?_
    simpa using h
  refine ⟨?_, ?_, ?_, ?_, ?_, ?_, ?_⟩
  · show w₀.sem = w₀.notifyCount
    rw [hsem, hcount]
  · show w₀.notifyCount = _
    rw [getCoro_setCoro_self _ _ _ hlen, hg, hcount]
    rfl
  · rw [getCoro_setCoro_self _ _ _ hlen]
  · intro jj hjj
    by_cases hje : w₀.coros.length = jj
    · exact hje.symm
    · rw [getCoro_setCoro_ne _ _ _ _ hje] at hjj
      rcases Nat.lt_trichotomy jj w₀.coros.length with hlt | heq | hgt
      · rw [hji jj hlt] at hjj
        rw [(h0 jj).1] at hjj
        cases hjj
      · exact absurd heq.symm hje
      · rw [hjg jj hgt] at hjj
        cases hjj
  · intro jj
    by_cases hje : w₀.coros.length = jj
    · subst hje
      rw [getCoro_setCoro_self _ _ _ hlen, hg]
      intro hdd
      have hx : (make_synchronized_task aid).done = true := hdd
      cases hx
    · rw [getCoro_setCoro_ne _ _ _ _ hje]
      rcases Nat.lt_trichotomy jj w₀.coros.length with hlt | heq | hgt
      · rw [hji jj hlt]
        exact (h0 jj).2
      · exact absurd heq.symm hje
      · rw [hjg jj hgt]
        intro _
        simp [defaultCoro]
  · show notifyAfterStore _ w₀.trace false = true
    rw [htrace]
    rfl
  · rw [length_setCoro]
    exact hlen

/-! ## Claim theorems -/

/-- C4: a `task<int>` coroutine that co_returns 42 (`foo`), awaited by
a continuation coroutine that co_returns the awaited result plus 23
(`bar`), yields exactly 65 when the outer task's result is read after
completion (`get()` delegating to the promise's storage cell). -/
theorem task_chain_result_65 :
    ((task.start 10 chainWorld 1).getCoro 1).done = true ∧
    storage_base.get_ref ((task.start 10 chainWorld 1).getCoro 1).result = GetOutcome.ok 65 :=
  ⟨rfl, rfl⟩

/-- C6: every invocation of a `task`-returning coroutine function
produces a task in the suspended state: `initial_suspend` is
`std::suspend_always`, whose suspension is always taken, so the body
has not begun (no result, not done) until started or awaited. -/
theorem task_lazy_initial_suspend (body : Body) :
    task.initial_suspend = TrivialAwaiter.always ∧
    TrivialAwaiter.await_ready task.initial_suspend = false ∧
    (invoke_task body).2 = false ∧
    ((invoke_task body).1).done = false ∧
    ((invoke_task body).1).result = StorageState.unset :=
  ⟨rfl, rfl, rfl, rfl, rfl⟩

/-- C7: on a cell in the value state, both `get()` overloads (const-ref
and move-extracting) produce the stored value; on a cell in the
exception state, both rethrow the stored exception instead of
returning a value. -/
theorem storage_get_value_or_rethrow (T : Type) (v : T) (e : ExnId) :
    storage_base.get_ref (StorageState.value v) = GetOutcome.ok v ∧
    storage_base.get_move (StorageState.value v) = GetOutcome.ok v ∧
    storage_base.get_ref (StorageState.exn e : StorageState T) = GetOutcome.thrown e ∧
    storage_base.get_move (StorageState.exn e : StorageState T) = GetOutcome.thrown e :=
  ⟨rfl, rfl, rfl, rfl⟩

/-- C10: `set_value` and `set_exception` write unconditionally in any
current state — a second write silently replaces whatever the cell
held, so at-most-once writing is a caller obligation, not enforced by
the cell. -/
theorem storage_set_overwrites_unconditionally (T : Type) (s : StorageState T)
    (v v' : T) (e e' : ExnId) :
    storage_base.set_value s v = StorageState.value v ∧
    storage.set_exception s e = StorageState.exn e ∧
    storage_base.set_value (storage_base.set_value s v) v' = StorageState.value v' ∧
    storage.set_exception (storage_base.set_value s v) e = StorageState.exn e ∧
    storage_base.set_value (storage.set_exception s e) v = StorageState.value v ∧
    storage.set_exception (storage.set_exception s e) e' = StorageState.exn e' :=
  ⟨rfl, rfl, rfl, rfl, rfl, rfl⟩

/-- C2: an exception from user code is captured into the storage cell
— by `async`'s worker-side `catch (...)` or by the promise's
`unhandled_exception` — and never escapes the resume-triggering call;
it is rethrown, with the same identity (same exception object), only
when `get()`/`await_resume()` reads the cell. -/
theorem exceptions_deferred_to_get (T : Type) (e : ExnId) (cell s : StorageState T) (v : T) :
    ((async.work (CallResult.raised e) cell).2 = none ∧
      (async.work (CallResult.raised e) cell).1 = StorageState.exn e ∧
      async.await_resume (async.work (CallResult.raised e) cell).1 = GetOutcome.thrown e) ∧
    (async.work (CallResult.ok v) cell).2 = none ∧
    (task_promise_storage_base.unhandled_exception s e = StorageState.exn e ∧
      storage_base.get_ref (task_promise_storage_base.unhandled_exception s e) =
        GetOutcome.thrown e) ∧
    (∀ (w : World) (i : Nat), w.current = .coro i → (w.getCoro i).done = false →
      (w.getCoro i).body = .fail e →
      ((step w).getCoro i).result = StorageState.exn e ∧
      ((step w).getCoro i).done = true ∧
      storage_base.get_ref ((step w).getCoro i).result = GetOutcome.thrown e) := by
  refine ⟨⟨rfl, rfl, rfl⟩, rfl, ⟨rfl, rfl⟩, ?_⟩
  intro w i hc hd hb
  have hilt : i < w.coros.length := lt_length_of_done_false w i hd
  rw [step_fail w i e hc hd hb, getCoro_finish, getCoro_setCoro_self w i _ hilt]
  exact ⟨rfl, rfl, rfl⟩

/-- C2 witness: a running frame whose body throws exception 3 ends the
step with the exception stored in its cell. -/
theorem exceptions_deferred_to_get_witness :
    failWorld.current = Handle.coro 0 ∧
    ((step failWorld).getCoro 0).result = StorageState.exn 3 ∧
    storage_base.get_ref ((step failWorld).getCoro 0).result = GetOutcome.thrown 3 := by
  have h := (exceptions_deferred_to_get Int 3 StorageState.unset StorageState.unset 0).2.2.2
      failWorld 0 rfl rfl rfl
  exact ⟨rfl, h.1, h.2.2⟩

/-- C5: awaiting a not-yet-done task stores the awaiting coroutine's
handle as the task's continuation and transfers control directly to
the task's own frame (the handle returned by `await_suspend`); at the
task's final suspend point, control transfers directly to the stored
continuation rather than to a scheduler. -/
theorem task_await_symmetric_transfer (w w' : World) (i j : Nat) (k : Val → Body) (v : Val)
    (hc : w.current = .coro i) (hd : (w.getCoro i).done = false)
    (hb : (w.getCoro i).body = .awaitTask j k) (hjd : (w.getCoro j).done = false)
    (hc' : w'.current = .coro j) (hd' : (w'.getCoro j).done = false)
    (hb' : (w'.getCoro j).body = .ret v) (_hs' : (w'.getCoro j).isSync = false) :
    (step w).current = .coro j ∧
    ((step w).getCoro j).continuation = .coro i ∧
    (step w').current = (w'.getCoro j).continuation := by
  rw [step_await_suspend w i j k hc hd hb hjd]
  refine ⟨rfl, ?_, ?_⟩
  · show ((w.setCoro j { w.getCoro j with continuation := .coro i }).getCoro j).continuation = _
    rw [getCoro_setCoro_self w j _ (lt_length_of_done_false w j hjd)]
  · rw [step_ret w' j v hc' hd' hb', finish_current]

/-- C5 witness: in the `foo`/`bar` chain, `bar`'s await of `foo`
registers `bar` as `foo`'s continuation and transfers to `foo`; `foo`'s
final suspend transfers to its stored continuation. -/
theorem task_await_symmetric_transfer_witness :
    (step { chainWorld with current := Handle.coro 1 }).current = Handle.coro 0 ∧
    ((step { chainWorld with current := Handle.coro 1 }).getCoro 0).continuation =
      Handle.coro 1 ∧
    (step { chainWorld with current := Handle.coro 0 }).current =
      (({ chainWorld with current := Handle.coro 0 } : World).getCoro 0).continuation := by
  have h := task_await_symmetric_transfer
      { chainWorld with current := Handle.coro 1 }
      { chainWorld with current := Handle.coro 0 }
      1 0 (fun r => .ret (r + 23)) 42 rfl rfl rfl rfl rfl rfl rfl rfl
  exact ⟨h.1, h.2.1, h.2.2⟩

/-- C9: awaiting an already-done task does not suspend — `await_ready`
is `handle.done()` — the awaited task is untouched (no continuation
registered, frame not resumed) and `await_resume` immediately feeds
the stored value to the awaiting body, or rethrows the stored
exception into it. -/
theorem await_ready_task_no_suspension (w w' : World) (i j : Nat) (k : Val → Body)
    (v : Val) (e : ExnId)
    (hc : w.current = .coro i) (hd : (w.getCoro i).done = false)
    (hb : (w.getCoro i).body = .awaitTask j k) (hjd : (w.getCoro j).done = true)
    (hres : (w.getCoro j).result = .value v)
    (hc' : w'.current = .coro i) (hd' : (w'.getCoro i).done = false)
    (hb' : (w'.getCoro i).body = .awaitTask j k) (hjd' : (w'.getCoro j).done = true)
    (hres' : (w'.getCoro j).result = .exn e) :
    ((step w).current = .coro i ∧
      (step w).getCoro j = w.getCoro j ∧
      ((step w).getCoro i).body = k v) ∧
    ((step w').current = .coro i ∧
      (step w').getCoro j = w'.getCoro j ∧
      ((step w').getCoro i).body = Body.fail e) := by
  have hij : i ≠ j := by
    intro hh
    rw [hh, hjd] at hd
    cases hd
  have hij' : i ≠ j := hij
  have hilt : i < w.coros.length := lt_length_of_done_false w i hd
  have hilt' : i < w'.coros.length := lt_length_of_done_false w' i hd'
  have hr : storage_base.get_ref (w.getCoro j).result = .ok v := by rw [hres]; rfl
  have hr' : storage_base.get_ref (w'.getCoro j).result = .thrown e := by rw [hres']; rfl
  constructor
  · rw [step_await_ok w i j k v hc hd hb hjd hr]
    refine ⟨hc, getCoro_setCoro_ne w i j _ hij, ?_⟩
    rw [getCoro_setCoro_self w i _ hilt]
  · rw [step_await_thrown w' i j k e hc' hd' hb' hjd' hr']
    refine ⟨hc', getCoro_setCoro_ne w' i j _ hij', ?_⟩
    rw [getCoro_setCoro_self w' i _ hilt']

/-- C9 witness: frame 1 awaiting the already-done frame 0 continues
immediately with the stored value (or exception), leaving frame 0
untouched. -/
theorem await_ready_task_no_suspension_witness :
    (step readyWorld).current = Handle.coro 1 ∧
    (step readyWorld).getCoro 0 = readyWorld.getCoro 0 ∧
    ((step readyExnWorld).getCoro 1).body = Body.fail 9 := by
  have h := await_ready_task_no_suspension readyWorld readyExnWorld 1 0
      (fun r => .ret (r + 23)) 7 9 rfl rfl rfl rfl rfl rfl rfl rfl rfl rfl
  exact ⟨h.1.1, h.1.2.1, h.2.2.2⟩

/-- C8: reading an unset cell is the design's undefined branch (a
distinguished non-result outcome), and `check_and_rethrow` performs no
check for it; under the intended precondition — the producer has
completed through the public `async`/task paths — the unset branch is
unreachable: `async`'s worker always leaves the cell set, and in every
machine run each completed frame has a set cell. -/
theorem storage_unset_read_undefined_and_unreachable (T : Type) :
    (storage_base.get_ref (StorageState.unset : StorageState T) = GetOutcome.undef ∧
      storage_base.get_move (StorageState.unset : StorageState T) = GetOutcome.undef ∧
      check_and_rethrow (StorageState.unset : StorageState T) = none) ∧
    (∀ (f : CallResult T) (cell : StorageState T),
      storage_base.get_move (async.work f cell).1 ≠ GetOutcome.undef) ∧
    (∀ (n : Nat) (w : World) (i : Nat),
      (∀ c ∈ w.coros, c.done = true → c.result ≠ StorageState.unset) →
      ((run n w).getCoro i).done = true →
      storage_base.get_ref ((run n w).getCoro i).result ≠ GetOutcome.undef) := by
  refine ⟨⟨rfl, rfl, rfl⟩, ?_, ?_⟩
  · intro f cell
    cases f with
    | ok v =>
      simp [async.work, async.tryBlock, storage_base.set_value, storage_base.get_move,
        check_and_rethrow]
    | raised e =>
      simp [async.work, async.tryBlock, storage.set_exception, storage_base.get_move,
        check_and_rethrow]
  · intro n w i hmem hdone
    have hall : AllDoneStored w := by
      intro jj
      refine forall_getD defaultCoro ?_ w.coros hmem jj
      intro _
      simp [defaultCoro]
    exact get_ref_ne_undef _ (allDoneStored_run n w hall i hdone)

/-- C8 witness: after running the `foo`/`bar` chain, the completed
outer frame's cell is set, so its `get()` does not hit the undefined
branch. -/
theorem storage_unset_read_undefined_and_unreachable_witness :
    ((run 10 { chainWorld with current := Handle.coro 1 }).getCoro 1).done = true ∧
    storage_base.get_ref
        ((run 10 { chainWorld with current := Handle.coro 1 }).getCoro 1).result ≠
      GetOutcome.undef := by
  refine ⟨rfl, ?_⟩
  exact (storage_unset_read_undefined_and_unreachable Int).2.2 10
    { chainWorld with current := Handle.coro 1 } 1 (by decide) rfl

/-- C1: for an awaitable handed to `sync_await`, the synchronized
task's final-suspend awaiter invokes `notify_awaitable_completed`
exactly once per run — exactly when the root frame completes — the
notification lies strictly after the root's result store in the trace,
and `sync_await`'s semaphore acquire can return only after the
notification, so `sync_await` never returns before the wrapped task's
final suspend has been reached. -/
theorem sync_await_notifies_once_after_store (fuel aid : Nat) (w₀ : World)
    (hwf : WellFormed w₀) :
    ((sync_await fuel w₀ aid).2.notifyCount =
      if ((sync_await fuel w₀ aid).2.getCoro w₀.coros.length).done then 1 else 0) ∧
    (∀ l₁ l₂, (sync_await fuel w₀ aid).2.trace = l₁ ++ Event.notified :: l₂ →
      Event.stored w₀.coros.length ∈ l₁) ∧
    ((sync_await fuel w₀ aid).1.isSome = true →
      ((sync_await fuel w₀ aid).2.getCoro w₀.coros.length).done = true ∧
      (sync_await fuel w₀ aid).2.notifyCount = 1) := by
  have hv := syncInv_synchronized_start fuel aid w₀ hwf
  obtain ⟨h1, h2, h3, h4, h5, h6, h7⟩ := hv
  simp only [sync_await]
  split
  case isTrue hsem =>
    refine ⟨h2, ?_, ?_⟩
    · intro l₁ l₂ hsp
      have hsp' : (synchronized_task.start fuel
          { w₀ with coros := w₀.coros ++ [make_synchronized_task aid] }
          w₀.coros.length).trace = l₁ ++ Event.notified :: l₂ := hsp
      rw [hsp'] at h6
      rcases notifyAfterStore_sound w₀.coros.length l₁ l₂ false h6 with hf | hm
      · cases hf
      · exact hm
    · intro _
      cases hdn : ((synchronized_task.start fuel
          { w₀ with coros := w₀.coros ++ [make_synchronized_task aid] }
          w₀.coros.length).getCoro w₀.coros.length).done with
      | false =>
        have h0 : (synchronized_task.start fuel
            { w₀ with coros := w₀.coros ++ [make_synchronized_task aid] }
            w₀.coros.length).sem = 0 := by
          rw [h1, h2, hdn]
          rfl
        rw [h0] at hsem
        exact absurd hsem (by decide)
      | true =>
        refine ⟨hdn, ?_⟩
        show (synchronized_task.start fuel
            { w₀ with coros := w₀.coros ++ [make_synchronized_task aid] }
            w₀.coros.length).notifyCount = 1
        rw [h2, hdn]
        rfl
  case isFalse hsem =>
    refine ⟨h2, ?_, ?_⟩
    · intro l₁ l₂ hsp
      have hsp' : (synchronized_task.start fuel
          { w₀ with coros := w₀.coros ++ [make_synchronized_task aid] }
          w₀.coros.length).trace = l₁ ++ Event.notified :: l₂ := hsp
      rw [hsp'] at h6
      rcases notifyAfterStore_sound w₀.coros.length l₁ l₂ false h6 with hf | hm
      · cases hf
      · exact hm
    · intro hsome
      exact Bool.noConfusion hsome

/-- C1 witness: running `sync_await` over the one-task example world
notifies exactly once, with the root frame done. -/
theorem sync_await_notifies_once_after_store_witness :
    WellFormed exampleWorld ∧
    (sync_await 10 exampleWorld 0).2.notifyCount =
      (if ((sync_await 10 exampleWorld 0).2.getCoro exampleWorld.coros.length).done
        then 1 else 0) := by
  have hwf : WellFormed exampleWorld := ⟨rfl, rfl, rfl, by decide⟩
  exact ⟨hwf, (sync_await_notifies_once_after_store 10 0 exampleWorld hwf).1⟩

/-- C3: `sync_await` blocks the caller until the wrapped synchronized
task completes and then returns exactly the task's stored result as
obtained by `get()` on the synchronized task — the stored value, or
the stored exception rethrown, never the undefined unset outcome; if
the task has not completed, the caller is still blocked and no result
is produced. -/
theorem sync_await_blocks_and_returns_result (fuel aid : Nat) (w₀ : World)
    (hwf : WellFormed w₀) :
    (∀ r, (sync_await fuel w₀ aid).1 = some r →
      ((sync_await fuel w₀ aid).2.getCoro w₀.coros.length).done = true ∧
      r = storage_base.get_ref
            ((sync_await fuel w₀ aid).2.getCoro w₀.coros.length).result ∧
      r ≠ GetOutcome.undef) ∧
    ((sync_await fuel w₀ aid).1 = none →
      ((sync_await fuel w₀ aid).2.getCoro w₀.coros.length).done = false) := by
  have hv := syncInv_synchronized_start fuel aid w₀ hwf
  obtain ⟨h1, h2, h3, h4, h5, h6, h7⟩ := hv
  simp only [sync_await]
  split
  case isTrue hsem =>
    have hdn : ((synchronized_task.start fuel
        { w₀ with coros := w₀.coros ++ [make_synchronized_task aid] }
        w₀.coros.length).getCoro w₀.coros.length).done = true := by
      cases hdn : ((synchronized_task.start fuel
          { w₀ with coros := w₀.coros ++ [make_synchronized_task aid] }
          w₀.coros.length).getCoro w₀.coros.length).done with
      | false =>
        have h0 : (synchronized_task.start fuel
            { w₀ with coros := w₀.coros ++ [make_synchronized_task aid] }
            w₀.coros.length).sem = 0 := by
          rw [h1, h2, hdn]
          rfl
        rw [h0] at hsem
        exact absurd hsem (by decide)
      | true => rfl
    constructor
    · intro r hr
      have hr' : storage_base.get_ref ((synchronized_task.start fuel
          { w₀ with coros := w₀.coros ++ [make_synchronized_task aid] }
          w₀.coros.length).getCoro w₀.coros.length).result = r := Option.some.inj hr
      refine ⟨hdn, hr'.symm, ?_⟩
      rw [← hr']
      exact get_ref_ne_undef _ (h5 w₀.coros.length hdn)
    · intro hnone
      exact Option.noConfusion hnone
  case isFalse hsem =>
    constructor
    · intro r hr
      exact Option.noConfusion hr
    · intro _
      cases hdn : ((synchronized_task.start fuel
          { w₀ with coros := w₀.coros ++ [make_synchronized_task aid] }
          w₀.coros.length).getCoro w₀.coros.length).done with
      | false => rfl
      | true =>
        exfalso
        have hc1 : (synchronized_task.start fuel
            { w₀ with coros := w₀.coros ++ [make_synchronized_task aid] }
            w₀.coros.length).sem = 1 := by
          rw [h1, h2, hdn]
          rfl
        rw [hc1] at hsem
        exact hsem (Nat.le_refl 1)

/-- C3 witness: `sync_await` over the one-task example world returns
the stored value 5 with the root frame completed. -/
theorem sync_await_blocks_and_returns_result_witness :
    WellFormed exampleWorld ∧
    (sync_await 10 exampleWorld 0).1 = some (GetOutcome.ok 5) ∧
    ((sync_await 10 exampleWorld 0).2.getCoro exampleWorld.coros.length).done = true := by
  have hwf : WellFormed exampleWorld := ⟨rfl, rfl, rfl, by decide⟩
  have happ := (sync_await_blocks_and_returns_result 10 0 exampleWorld hwf).1
      (GetOutcome.ok 5) (by decide)
  exact ⟨hwf, by decide, happ.1⟩

end Workshop
